import Mathlib

/-!
# Verification of the Expo mock-generation engine

Shallow embedding of the mock generator (`generateMocks` pipeline): the
Swift-type-name → TypeScript-type mapper, the default-value synthesizer,
the function/type-alias declaration builders and the module scanner,
together with proofs of the specified properties.

Strings are modelled by Lean `String` (a list of characters); the
JavaScript operations `startsWith('[')`, `endsWith(']')` and
`substring(1, length - 1)` are embedded as the corresponding operations
on the character list.
-/

/-- The kinds of TypeScript syntax nodes the generator distinguishes
(`ts.SyntaxKind` restricted to the kinds that can occur here). -/
inductive SyntaxKind where
  | VoidKeyword
  | AnyKeyword
  | StringKeyword
  | BooleanKeyword
  | NumberKeyword
  | ArrayType
  | TypeReference
deriving DecidableEq, Repr

/-- A TypeScript type node as produced by `mapSwiftTypeToTsType`:
a keyword type, an array type, or a named type reference. -/
inductive TsType where
  | voidKeyword
  | anyKeyword
  | stringKeyword
  | booleanKeyword
  | numberKeyword
  | arrayType (elementType : TsType)
  | typeReference (typeName : String)
deriving DecidableEq, Repr

/-- The `kind` field of a type node (`tsReturnType.kind` in the source). -/
def TsType.kind : TsType → SyntaxKind
  | .voidKeyword => .VoidKeyword
  | .anyKeyword => .AnyKeyword
  | .stringKeyword => .StringKeyword
  | .booleanKeyword => .BooleanKeyword
  | .numberKeyword => .NumberKeyword
  | .arrayType _ => .ArrayType
  | .typeReference _ => .TypeReference

/-- `isSwiftArray`: the name opens with `[` and closes with `]`
(`type.startsWith('[') && type.endsWith(']')`). -/
def isSwiftArray (type : String) : Bool :=
  type.data.head? == some '[' && type.data.getLast? == some ']'

/-- `maybeUnwrapSwiftArray`: if the name has the array syntax, strip the
outer bracket pair (`type.substring(1, type.length - 1)`); otherwise
return the name unchanged. -/
def maybeUnwrapSwiftArray (type : String) : String :=
  if isSwiftArray type then ⟨(type.data.drop 1).dropLast⟩ else type

theorem length_maybeUnwrapSwiftArray_lt (type : String)
    (h : isSwiftArray type = true) :
    (maybeUnwrapSwiftArray type).length < type.length := by
  have hne : type.data ≠ [] := by
    intro hnil
    simp [isSwiftArray, hnil] at h
  unfold maybeUnwrapSwiftArray
  rw [h]
  show ((type.data.drop 1).dropLast).length < type.data.length
  rw [List.length_dropLast, List.length_drop]
  have hpos : 0 < type.data.length := List.length_pos.mpr hne
  omega

/-- `mapSwiftTypeToTsType`: translate a foreign (Swift) type-name string
into a TypeScript type node.  Empty input maps to `void`; array syntax is
unwrapped recursively; the recognized primitive names map to keyword
types; anything else becomes a named type reference carrying the input
verbatim. -/
def mapSwiftTypeToTsType (type : String) : TsType :=
  if type = "" then .voidKeyword
  else if h : isSwiftArray type = true then
    .arrayType (mapSwiftTypeToTsType (maybeUnwrapSwiftArray type))
  else if type = "unknown" then .anyKeyword
  else if type = "String" then .stringKeyword
  else if type = "Bool" then .booleanKeyword
  else if type = "Int" ∨ type = "Float" ∨ type = "Double" then .numberKeyword
  else .typeReference type
termination_by type.length
decreasing_by
  exact length_maybeUnwrapSwiftArray_lt type h

theorem mapSwiftTypeToTsType_empty : mapSwiftTypeToTsType "" = .voidKeyword := by
  rw [mapSwiftTypeToTsType.eq_def]
  decide

theorem mapSwiftTypeToTsType_array (type : String) (h0 : type ≠ "")
    (h1 : isSwiftArray type = true) :
    mapSwiftTypeToTsType type =
      .arrayType (mapSwiftTypeToTsType (maybeUnwrapSwiftArray type)) := by
  rw [mapSwiftTypeToTsType.eq_def]
  simp [h0, h1]

theorem mapSwiftTypeToTsType_base (type : String) (h0 : type ≠ "")
    (h1 : isSwiftArray type = false) :
    mapSwiftTypeToTsType type =
      if type = "unknown" then .anyKeyword
      else if type = "String" then .stringKeyword
      else if type = "Bool" then .booleanKeyword
      else if type = "Int" ∨ type = "Float" ∨ type = "Double" then .numberKeyword
      else .typeReference type := by
  rw [mapSwiftTypeToTsType.eq_def]
  simp [h0, h1]

/-- Modelled from the spec: a parameter of a `Closure` — a name together
with a type-name string in the foreign (Swift) syntax.  (The `types`
module declaring `Parameter` is not among the repository sources.) -/
structure Parameter where
  name : String
  typename : String
deriving DecidableEq, Repr

/-- Modelled from the spec: a `ClosureTypes` record — an ordered sequence
of parameters and an optional return type-name string.  (The `types`
module declaring `ClosureTypes` is not among the repository sources.) -/
structure ClosureTypes where
  parameters : List Parameter
  returnType : Option String
deriving DecidableEq, Repr

/-- Modelled from the spec: a `Closure` — a function-like declaration with
a name and an optional `ClosureTypes` record (the source guards `types`
with optional chaining, so it may be absent). -/
structure Closure where
  name : String
  types : Option ClosureTypes
deriving DecidableEq, Repr

/-- Modelled from the spec: an `OutputModuleDefinition` — a named entity
with three sequences of `Closure` (plain functions, async functions,
synchronous functions).  The declaration builder consumes
`module.functions` and `module.asyncFunctions`; the scanner iterates
every array-valued field of the module (`Object.values(module)` with an
`Array.isArray` guard, which skips the `name` string), so it also scans
the synchronous sequence. -/
structure OutputModuleDefinition where
  name : String
  functions : List Closure
  asyncFunctions : List Closure
  syncFunctions : List Closure
deriving DecidableEq, Repr

/-- A literal expression occurring in a generated mock body. -/
inductive Expression where
  | nullLiteral
  | stringLiteral (value : String)
  | falseLiteral
  | numericLiteral (value : String)
  | arrayLiteralExpression
deriving DecidableEq, Repr

/-- A statement of a generated mock body (only return statements occur). -/
inductive Statement where
  | returnStatement (expression : Expression)
deriving DecidableEq, Repr

/-- A modifier token on a generated declaration. -/
inductive Modifier where
  | exportKeyword
  | asyncKeyword
deriving DecidableEq, Repr

/-- A declared return type: either a plain type node, or the
`Promise<T>` type-reference node built by `wrapWithAsync`. -/
inductive TsTypeNode where
  | plain (type : TsType)
  | promiseReference (typeArgument : TsType)
deriving DecidableEq, Repr

/-- `getMockReturnStatements`: the default-value statements for a mapped
return type (the `switch (tsReturnType.kind)` of the source; a named
type reference falls through the switch to `return []`). -/
def getMockReturnStatements : TsType → List Statement
  | .anyKeyword => [.returnStatement .nullLiteral]
  | .stringKeyword => [.returnStatement (.stringLiteral "")]
  | .booleanKeyword => [.returnStatement .falseLiteral]
  | .numberKeyword => [.returnStatement (.numericLiteral "0")]
  | .voidKeyword => []
  | .arrayType _ => [.returnStatement .arrayLiteralExpression]
  | .typeReference _ => []

/-- `wrapWithAsync`: wrap a type in the `Promise` type reference. -/
def wrapWithAsync (tsType : TsType) : TsTypeNode :=
  .promiseReference tsType

/-- A generated parameter declaration. -/
structure ParameterDeclaration where
  name : String
  type : TsType
deriving DecidableEq, Repr

/-- A generated function declaration. -/
structure FunctionDeclaration where
  modifiers : List Modifier
  name : String
  parameters : List ParameterDeclaration
  returnType : TsTypeNode
  body : List Statement
deriving DecidableEq, Repr

/-- The return-type name the source feeds to the mapper:
`fnStructure.types?.returnType`, where an absent record or absent
return type behaves like the empty string (`!type`). -/
def closureReturnTypeName (fnStructure : Closure) : String :=
  ((fnStructure.types.bind ClosureTypes.returnType).getD "")

/-- `getMockedFunctions`: build one mock function declaration per
closure.  The `async` flag defaults to `false` at the source's call
site for plain functions. -/
def getMockedFunctions (functions : List Closure) (async : Bool) :
    List FunctionDeclaration :=
  functions.map fun fnStructure =>
    let returnType := mapSwiftTypeToTsType (closureReturnTypeName fnStructure)
    { modifiers :=
        Modifier.exportKeyword :: (if async then [Modifier.asyncKeyword] else []),
      name := fnStructure.name,
      parameters :=
        (fnStructure.types.map fun t =>
          t.parameters.map fun p =>
            { name := p.name, type := mapSwiftTypeToTsType p.typename }).getD [],
      returnType := if async then wrapWithAsync returnType else .plain returnType,
      body := getMockReturnStatements returnType }

/-- The `foundTypes` list collected by `getTypesToMock`: for every closure
of the module's array-valued fields (all three closure sequences; the
`name` string fails `Array.isArray` and is skipped), the once-unwrapped
parameter type names followed by the once-unwrapped return type name
(the latter only when present and non-empty, after
`types?.returnType &&`). -/
def collectedTypeNames (module : OutputModuleDefinition) : List String :=
  ((module.functions ++ module.asyncFunctions ++ module.syncFunctions).map
      Closure.types).flatMap
    fun types =>
      match types with
      | none => []
      | some t =>
          t.parameters.map (fun p => maybeUnwrapSwiftArray p.typename) ++
          (match t.returnType with
           | some r => if r = "" then [] else [maybeUnwrapSwiftArray r]
           | none => [])

/-- Insertion-order deduplication: the semantics of `new Set(list)`
iterated in order (a JavaScript `Set` keeps first occurrences). -/
def setFromList (l : List String) : List String :=
  l.foldl (fun acc a => if a ∈ acc then acc else acc ++ [a]) []

/-- `getTypesToMock`: the set of collected type names whose mapping is a
named type reference (`kind === ts.SyntaxKind.TypeReference`). -/
def getTypesToMock (module : OutputModuleDefinition) : List String :=
  setFromList
    ((collectedTypeNames module).filter fun ft =>
      (mapSwiftTypeToTsType ft).kind == SyntaxKind.TypeReference)

/-- A generated type-alias declaration. -/
structure TypeAliasDeclaration where
  modifiers : List Modifier
  name : String
  aliasedType : TsType
deriving DecidableEq, Repr

/-- `getMockedTypes`: one exported `type N = any` alias per name. -/
def getMockedTypes (types : List String) : List TypeAliasDeclaration :=
  types.map fun type =>
    { modifiers := [Modifier.exportKeyword],
      name := type,
      aliasedType := TsType.anyKeyword }

/-- A generated top-level declaration of the output file. -/
inductive Declaration where
  | typeAlias (declaration : TypeAliasDeclaration)
  | functionDeclaration (declaration : FunctionDeclaration)
deriving DecidableEq, Repr

/-- The modifiers of a generated declaration, alias or function. -/
def Declaration.modifiers : Declaration → List Modifier
  | .typeAlias d => d.modifiers
  | .functionDeclaration d => d.modifiers

/-- `getMockForModule`: aliases, then plain functions, then async
functions. -/
def getMockForModule (module : OutputModuleDefinition) : List Declaration :=
  (getMockedTypes (getTypesToMock module)).map Declaration.typeAlias ++
  (getMockedFunctions module.functions false).map Declaration.functionDeclaration ++
  (getMockedFunctions module.asyncFunctions true).map Declaration.functionDeclaration

/-- Modelled from the spec: the textual form of a mapped type, as the
TypeScript printer (an external library, not a repository source) prints
it — keyword types print as their keyword, `T[]` for arrays, the bare
name for a type reference. -/
def renderTsType : TsType → String
  | .voidKeyword => "void"
  | .anyKeyword => "any"
  | .stringKeyword => "string"
  | .booleanKeyword => "boolean"
  | .numberKeyword => "number"
  | .arrayType t => renderTsType t ++ "[]"
  | .typeReference name => name

/-! ## Helper lemmas about bracket-wrapped names -/

theorem data_bracketWrap (T : String) :
    ("[" ++ T ++ "]").data = '[' :: (T.data ++ [']']) := by
  simp [String.data_append]

theorem bracketWrap_ne_empty (T : String) : ("[" ++ T ++ "]") ≠ "" := by
  intro h
  have := congrArg String.data h
  rw [data_bracketWrap] at this
  simp at this

theorem isSwiftArray_bracketWrap (T : String) :
    isSwiftArray ("[" ++ T ++ "]") = true := by
  unfold isSwiftArray
  rw [data_bracketWrap]
  have hlast : ('[' :: (T.data ++ [']'])).getLast? = some ']' := by
    rw [show ('[' :: (T.data ++ [']'])) = ('[' :: T.data) ++ [']'] by simp]
    exact List.getLast?_concat _
  rw [hlast]
  simp

theorem maybeUnwrapSwiftArray_bracketWrap (T : String) :
    maybeUnwrapSwiftArray ("[" ++ T ++ "]") = T := by
  unfold maybeUnwrapSwiftArray
  rw [isSwiftArray_bracketWrap]
  simp only [if_true]
  apply String.ext
  show (((("[" ++ T ++ "]").data).drop 1).dropLast) = T.data
  rw [data_bracketWrap]
  simp

theorem mapSwiftTypeToTsType_bracketWrap (T : String) :
    mapSwiftTypeToTsType ("[" ++ T ++ "]") =
      TsType.arrayType (mapSwiftTypeToTsType T) := by
  rw [mapSwiftTypeToTsType_array _ (bracketWrap_ne_empty T) (isSwiftArray_bracketWrap T),
    maybeUnwrapSwiftArray_bracketWrap]

/-! ## Helper lemmas about `setFromList` -/

theorem mem_setFromList_foldl (l : List String) :
    ∀ (acc : List String) (x : String),
      (x ∈ l.foldl (fun acc a => if a ∈ acc then acc else acc ++ [a]) acc) ↔
        x ∈ acc ∨ x ∈ l := by
  induction l with
  | nil => simp
  | cons a l ih =>
    intro acc x
    simp only [List.foldl_cons]
    rw [ih]
    by_cases h : a ∈ acc
    · rw [if_pos h, List.mem_cons]
      constructor
      · tauto
      · rintro (hx | rfl | hx)
        · exact Or.inl hx
        · exact Or.inl h
        · exact Or.inr hx
    · rw [if_neg h, List.mem_cons, List.mem_append, List.mem_singleton]
      tauto

theorem mem_setFromList (l : List String) (x : String) :
    x ∈ setFromList l ↔ x ∈ l := by
  unfold setFromList
  rw [mem_setFromList_foldl]
  simp

theorem nodup_setFromList_foldl (l : List String) :
    ∀ acc : List String, acc.Nodup →
      (l.foldl (fun acc a => if a ∈ acc then acc else acc ++ [a]) acc).Nodup := by
  induction l with
  | nil => intro acc h; simpa
  | cons a l ih =>
    intro acc h
    simp only [List.foldl_cons]
    apply ih
    by_cases h2 : a ∈ acc
    · simpa [h2]
    · simp only [h2, if_false]
      rw [List.nodup_append]
      refine ⟨h, List.nodup_singleton a, ?_⟩
      intro x hx hxa
      rw [List.mem_singleton] at hxa
      subst hxa
      exact h2 hx

theorem nodup_setFromList (l : List String) : (setFromList l).Nodup :=
  nodup_setFromList_foldl l [] List.nodup_nil

/-! ## Claim theorems -/

/-- C1: the type mapper classifies exactly as specified: `""` maps to
`void`, `unknown` to `any`, `String` to `string`, `Bool` to `boolean`,
`Int`/`Float`/`Double` to `number`, and every other bare
(non-array-syntax) identifier maps to a named type reference carrying
that identifier verbatim (the mapper is total, so it never fails). -/
theorem C1_type_mapper_classification :
    mapSwiftTypeToTsType "" = TsType.voidKeyword ∧
    mapSwiftTypeToTsType "unknown" = TsType.anyKeyword ∧
    mapSwiftTypeToTsType "String" = TsType.stringKeyword ∧
    mapSwiftTypeToTsType "Bool" = TsType.booleanKeyword ∧
    mapSwiftTypeToTsType "Int" = TsType.numberKeyword ∧
    mapSwiftTypeToTsType "Float" = TsType.numberKeyword ∧
    mapSwiftTypeToTsType "Double" = TsType.numberKeyword ∧
    (∀ type : String, type ≠ "" → isSwiftArray type = false →
      type ≠ "unknown" → type ≠ "String" → type ≠ "Bool" →
      type ≠ "Int" → type ≠ "Float" → type ≠ "Double" →
      mapSwiftTypeToTsType type = TsType.typeReference type) := by
  refine ⟨mapSwiftTypeToTsType_empty, ?_, ?_, ?_, ?_, ?_, ?_, ?_⟩
  · rw [mapSwiftTypeToTsType_base "unknown" (by decide) (by decide)]; decide
  · rw [mapSwiftTypeToTsType_base "String" (by decide) (by decide)]; decide
  · rw [mapSwiftTypeToTsType_base "Bool" (by decide) (by decide)]; decide
  · rw [mapSwiftTypeToTsType_base "Int" (by decide) (by decide)]; decide
  · rw [mapSwiftTypeToTsType_base "Float" (by decide) (by decide)]; decide
  · rw [mapSwiftTypeToTsType_base "Double" (by decide) (by decide)]; decide
  · intro type h0 h1 h2 h3 h4 h5 h6 h7
    rw [mapSwiftTypeToTsType_base type h0 h1]
    simp [h2, h3, h4, h5, h6, h7]

/-- C1 witness: an unrecognized bare identifier maps to a reference
carrying the identifier verbatim. -/
theorem C1_type_mapper_classification_witness :
    mapSwiftTypeToTsType "CustomRecord" = TsType.typeReference "CustomRecord" :=
  C1_type_mapper_classification.2.2.2.2.2.2.2 "CustomRecord" (by decide)
    (by decide) (by decide) (by decide) (by decide) (by decide) (by decide)
    (by decide)

/-- C2: for every type name `T`, mapping `[T]` yields array-of the
mapping of `T`, mapping `[[T]]` yields array-of-array-of the mapping of
`T`, and in general every array-syntax name maps to array-of the
mapping of the name with one bracket pair stripped. -/
theorem C2_array_mapping :
    (∀ T : String, mapSwiftTypeToTsType ("[" ++ T ++ "]") =
        TsType.arrayType (mapSwiftTypeToTsType T)) ∧
    (∀ T : String, mapSwiftTypeToTsType ("[[" ++ T ++ "]]") =
        TsType.arrayType (TsType.arrayType (mapSwiftTypeToTsType T))) ∧
    (∀ type : String, isSwiftArray type = true →
      mapSwiftTypeToTsType type =
        TsType.arrayType (mapSwiftTypeToTsType (maybeUnwrapSwiftArray type))) := by
  refine ⟨mapSwiftTypeToTsType_bracketWrap, ?_, ?_⟩
  · intro T
    have hsplit : ("[[" ++ T ++ "]]" : String) = "[" ++ ("[" ++ T ++ "]") ++ "]" := by
      apply String.ext
      simp [String.data_append]
    rw [hsplit, mapSwiftTypeToTsType_bracketWrap, mapSwiftTypeToTsType_bracketWrap]
  · intro type h
    have h0 : type ≠ "" := by
      intro hnil
      subst hnil
      simp [isSwiftArray] at h
    exact mapSwiftTypeToTsType_array type h0 h

/-- C2 witness: the array rule applied to the concrete name `[Int]`. -/
theorem C2_array_mapping_witness :
    mapSwiftTypeToTsType "[Int]" =
      TsType.arrayType (mapSwiftTypeToTsType (maybeUnwrapSwiftArray "[Int]")) :=
  C2_array_mapping.2.2 "[Int]" (by decide)

/-- C3: the default-value synthesizer returns `return null` for the any
keyword, `return ''` for string, `return false` for boolean, `return 0`
for number, no statements for void, `return []` for every array type
regardless of element type, and no statements for a named type
reference (falling through identically to void). -/
theorem C3_default_value_synthesizer :
    getMockReturnStatements TsType.anyKeyword =
      [Statement.returnStatement Expression.nullLiteral] ∧
    getMockReturnStatements TsType.stringKeyword =
      [Statement.returnStatement (Expression.stringLiteral "")] ∧
    getMockReturnStatements TsType.booleanKeyword =
      [Statement.returnStatement Expression.falseLiteral] ∧
    getMockReturnStatements TsType.numberKeyword =
      [Statement.returnStatement (Expression.numericLiteral "0")] ∧
    getMockReturnStatements TsType.voidKeyword = [] ∧
    (∀ t : TsType, getMockReturnStatements (TsType.arrayType t) =
      [Statement.returnStatement Expression.arrayLiteralExpression]) ∧
    (∀ name : String, getMockReturnStatements (TsType.typeReference name) =
      getMockReturnStatements TsType.voidKeyword) :=
  ⟨rfl, rfl, rfl, rfl, rfl, fun _ => rfl, fun _ => rfl⟩

/-- C4: a closure built with `isAsync` true yields a declaration carrying
the async modifier, whose declared return type is `Promise` of the
mapped return type, and whose body is the synchronous default-value
statements of the unwrapped mapped return type — the same body the
closure gets when built synchronously. -/
theorem C4_async_wrapping (c : Closure) :
    ∃ d : FunctionDeclaration,
      getMockedFunctions [c] true = [d] ∧
      Modifier.asyncKeyword ∈ d.modifiers ∧
      d.returnType =
        wrapWithAsync (mapSwiftTypeToTsType (closureReturnTypeName c)) ∧
      d.body =
        getMockReturnStatements (mapSwiftTypeToTsType (closureReturnTypeName c)) ∧
      ∃ dSync : FunctionDeclaration,
        getMockedFunctions [c] false = [dSync] ∧ d.body = dSync.body :=
  ⟨_, rfl, by simp, rfl, rfl, _, rfl, rfl⟩

/-- C8: the type mapper is total: the bracket-stripping step strictly
shrinks its input (hence the recursion terminates), and the mapper
yields a result for every input string. -/
theorem C8_type_mapper_total :
    (∀ type : String, isSwiftArray type = true →
      (maybeUnwrapSwiftArray type).length < type.length) ∧
    (∀ type : String, ∃ t : TsType, mapSwiftTypeToTsType type = t) :=
  ⟨length_maybeUnwrapSwiftArray_lt, fun _ => ⟨_, rfl⟩⟩

/-- C8 witness: the bracket-stripping step shrinks the concrete name
`[Int]`. -/
theorem C8_type_mapper_total_witness :
    (maybeUnwrapSwiftArray "[Int]").length < ("[Int]" : String).length :=
  C8_type_mapper_total.1 "[Int]" (by decide)

/-- C9: the two-character string `[]` is recognized as array syntax with
an empty inner name, so it maps to array-of-void — not to a named type
reference and not to an error. -/
theorem C9_empty_bracket_pair :
    mapSwiftTypeToTsType "[]" = TsType.arrayType TsType.voidKeyword ∧
    (mapSwiftTypeToTsType "[]").kind ≠ SyntaxKind.TypeReference := by
  have h : mapSwiftTypeToTsType "[]" = TsType.arrayType TsType.voidKeyword := by
    rw [mapSwiftTypeToTsType_array "[]" (by decide) (by decide)]
    have hu : maybeUnwrapSwiftArray "[]" = "" := by decide
    rw [hu, mapSwiftTypeToTsType_empty]
  exact ⟨h, by rw [h]; decide⟩

/-- C10: a closure whose `ClosureTypes` record is absent still builds: the
declaration has zero parameters, return type `void` (`Promise<void>`
when built async) and an empty body. -/
theorem C10_absent_closure_types (name : String) (async : Bool) :
    getMockedFunctions [{ name := name, types := none }] async =
      [{ modifiers :=
           Modifier.exportKeyword :: (if async then [Modifier.asyncKeyword] else []),
         name := name,
         parameters := [],
         returnType :=
           if async then wrapWithAsync TsType.voidKeyword
           else TsTypeNode.plain TsType.voidKeyword,
         body := [] }] := by
  simp only [getMockedFunctions, List.map_cons, List.map_nil]
  have hret : closureReturnTypeName { name := name, types := none } = "" := rfl
  rw [hret, mapSwiftTypeToTsType_empty]
  rfl

/-- The C5 counterexample module: one function returning `[[Foo]]`. -/
def nestedArrayModule : OutputModuleDefinition :=
  { name := "NestedArrayModule",
    functions :=
      [{ name := "getMatrix",
         types := some { parameters := [], returnType := some "[[Foo]]" } }],
    asyncFunctions := [],
    syncFunctions := [] }

/-- C5 counterexample: the claim says nested arrays are stripped
recursively, so the module whose only type name is `[[Foo]]` would have
to yield the type set `{Foo}`; the scanner strips one bracket pair only,
classifies `[Foo]` as an array, and returns the empty set. -/
theorem C5_counterexample :
    "Foo" ∉ getTypesToMock nestedArrayModule ∧
    getTypesToMock nestedArrayModule = [] := by
  have hcollect : collectedTypeNames nestedArrayModule = ["[Foo]"] := by decide
  have hmap : mapSwiftTypeToTsType "[Foo]" =
      TsType.arrayType (mapSwiftTypeToTsType "Foo") :=
    mapSwiftTypeToTsType_array "[Foo]" (by decide) (by decide)
  have hkind : ((mapSwiftTypeToTsType "[Foo]").kind == SyntaxKind.TypeReference)
      = false := by
    rw [hmap]
    decide
  have hempty : getTypesToMock nestedArrayModule = [] := by
    unfold getTypesToMock
    rw [hcollect]
    simp only [List.filter, hkind]
    decide
  exact ⟨by rw [hempty]; simp, hempty⟩

/-- The names a module contributes to the scanner: a name occurs when
some closure of one of the module's three closure sequences has a
`ClosureTypes` record whose parameter list contains a typename
unwrapping (once) to the name, or whose present, non-empty return type
unwraps (once) to the name. -/
def moduleTypeNameOccurs (module : OutputModuleDefinition) (name : String) : Prop :=
  ∃ c ∈ module.functions ++ module.asyncFunctions ++ module.syncFunctions,
    ∃ t, c.types = some t ∧
    ((∃ p ∈ t.parameters, maybeUnwrapSwiftArray p.typename = name) ∨
     (∃ r, t.returnType = some r ∧ r ≠ "" ∧ maybeUnwrapSwiftArray r = name))

theorem mem_collectedTypeNames (module : OutputModuleDefinition) (name : String) :
    name ∈ collectedTypeNames module ↔ moduleTypeNameOccurs module name := by
  unfold collectedTypeNames moduleTypeNameOccurs
  rw [List.mem_flatMap]
  constructor
  · rintro ⟨o, ho, hname⟩
    rw [List.mem_map] at ho
    obtain ⟨c, hc, rfl⟩ := ho
    refine ⟨c, hc, ?_⟩
    cases hct : c.types with
    | none =>
      simp only [hct] at hname
      simp at hname
    | some t =>
      simp only [hct] at hname
      refine ⟨t, rfl, ?_⟩
      rw [List.mem_append] at hname
      rcases hname with hp | hr
      · left
        rw [List.mem_map] at hp
        obtain ⟨p, hp, hpe⟩ := hp
        exact ⟨p, hp, hpe⟩
      · right
        cases hrt : t.returnType with
        | none =>
          simp only [hrt] at hr
          simp at hr
        | some r =>
          simp only [hrt] at hr
          by_cases hre : r = ""
          · rw [if_pos hre] at hr
            simp at hr
          · rw [if_neg hre] at hr
            rw [List.mem_singleton] at hr
            exact ⟨r, rfl, hre, hr.symm⟩
  · rintro ⟨c, hc, t, hct, hcase⟩
    refine ⟨c.types, List.mem_map.mpr ⟨c, hc, rfl⟩, ?_⟩
    simp only [hct]
    rw [List.mem_append]
    rcases hcase with ⟨p, hp, hpe⟩ | ⟨r, hrt, hre, hue⟩
    · left
      rw [List.mem_map]
      exact ⟨p, hp, hpe⟩
    · right
      simp only [hrt]
      rw [if_neg hre, List.mem_singleton]
      exact hue.symm

/-- C5 amended: the scanner returns a duplicate-free set, and a name is
included iff some parameter or non-empty return type name of the
module's closure sequences (plain, async and synchronous functions —
every array-valued field the `Object.values` scan visits) unwraps — by
stripping a SINGLE bracket pair, not recursively — to that name, and
the type mapper classifies the once-unwrapped name as a named type
reference (so a doubly-nested array like `[[Foo]]` contributes
`[Foo]`, which is classified as an array and excluded). -/
theorem C5_amended_opaque_type_scan :
    (∀ module : OutputModuleDefinition, (getTypesToMock module).Nodup) ∧
    (∀ (module : OutputModuleDefinition) (name : String),
      name ∈ getTypesToMock module ↔
        moduleTypeNameOccurs module name ∧
        (mapSwiftTypeToTsType name).kind = SyntaxKind.TypeReference) := by
  constructor
  · intro module
    exact nodup_setFromList _
  · intro module name
    unfold getTypesToMock
    rw [mem_setFromList, List.mem_filter, mem_collectedTypeNames]
    constructor
    · rintro ⟨h1, h2⟩
      exact ⟨h1, by rwa [beq_iff_eq] at h2⟩
    · rintro ⟨h1, h2⟩
      exact ⟨h1, by rwa [beq_iff_eq]⟩

/-- C6: the generated declaration list is exactly aliases ++ plain
functions ++ async functions; every generated declaration carries the
export modifier; function declarations follow the input order
(name-for-name); every async declaration carries the async modifier. -/
theorem C6_module_output_layout (module : OutputModuleDefinition) :
    getMockForModule module =
      (getMockedTypes (getTypesToMock module)).map Declaration.typeAlias ++
      (getMockedFunctions module.functions false).map Declaration.functionDeclaration ++
      (getMockedFunctions module.asyncFunctions true).map Declaration.functionDeclaration ∧
    (∀ d ∈ getMockForModule module, Modifier.exportKeyword ∈ d.modifiers) ∧
    (getMockedFunctions module.functions false).map FunctionDeclaration.name =
      module.functions.map Closure.name ∧
    (getMockedFunctions module.asyncFunctions true).map FunctionDeclaration.name =
      module.asyncFunctions.map Closure.name ∧
    (∀ d ∈ getMockedFunctions module.asyncFunctions true,
      Modifier.asyncKeyword ∈ d.modifiers) := by
  refine ⟨rfl, ?_, ?_, ?_, ?_⟩
  · intro d hd
    simp only [getMockForModule, List.mem_append] at hd
    rcases hd with (hd | hd) | hd
    · rw [List.mem_map] at hd
      obtain ⟨a, ha, rfl⟩ := hd
      simp only [getMockedTypes, List.mem_map] at ha
      obtain ⟨ty, _, rfl⟩ := ha
      simp [Declaration.modifiers]
    · rw [List.mem_map] at hd
      obtain ⟨f, hf, rfl⟩ := hd
      simp only [getMockedFunctions, List.mem_map] at hf
      obtain ⟨c, _, rfl⟩ := hf
      simp [Declaration.modifiers]
    · rw [List.mem_map] at hd
      obtain ⟨f, hf, rfl⟩ := hd
      simp only [getMockedFunctions, List.mem_map] at hf
      obtain ⟨c, _, rfl⟩ := hf
      simp [Declaration.modifiers]
  · simp only [getMockedFunctions]
    rw [List.map_map]
    rfl
  · simp only [getMockedFunctions]
    rw [List.map_map]
    rfl
  · intro d hd
    simp only [getMockedFunctions, List.mem_map] at hd
    obtain ⟨c, _, rfl⟩ := hd
    simp

/-- The C6 witness module: one async function with no types record. -/
def sampleModule : OutputModuleDefinition :=
  { name := "SampleModule",
    functions := [],
    asyncFunctions := [{ name := "pingAsync", types := none }],
    syncFunctions := [] }

/-- C6 witness: the async declaration generated for `sampleModule`
carries the async modifier. -/
theorem C6_module_output_layout_witness :
    Modifier.asyncKeyword ∈
      ({ modifiers := [Modifier.exportKeyword, Modifier.asyncKeyword],
         name := "pingAsync", parameters := [],
         returnType := wrapWithAsync TsType.voidKeyword,
         body := [] } : FunctionDeclaration).modifiers :=
  (C6_module_output_layout sampleModule).2.2.2.2 _ (by
    simp only [sampleModule, getMockedFunctions, List.map_cons, List.map_nil]
    rw [show closureReturnTypeName { name := "pingAsync", types := none } = ""
      from rfl, mapSwiftTypeToTsType_empty]
    exact List.mem_singleton.mpr rfl)

/-- C7 counterexample: mapping `String` yields the string keyword, whose
textual form is `string`; mapping `string` again yields a named type
reference — a different classification, so mapping is not idempotent
with respect to its own textual output. -/
theorem C7_counterexample :
    (mapSwiftTypeToTsType (renderTsType (mapSwiftTypeToTsType "String"))).kind ≠
      (mapSwiftTypeToTsType "String").kind := by
  have h1 : mapSwiftTypeToTsType "String" = TsType.stringKeyword := by
    rw [mapSwiftTypeToTsType_base "String" (by decide) (by decide)]
    decide
  have h2 : mapSwiftTypeToTsType "string" = TsType.typeReference "string" := by
    rw [mapSwiftTypeToTsType_base "string" (by decide) (by decide)]
    decide
  rw [h1]
  show (mapSwiftTypeToTsType "string").kind ≠ SyntaxKind.StringKeyword
  rw [h2]
  decide

/-- C7 amended: for every input whose mapping is a named type reference,
re-mapping the rendered text yields the identical mapped type; for every
input whose mapping is a primitive keyword (neither an array type nor a
type reference), re-mapping the rendered keyword text yields a named
type reference — a different classification.  (For array
classifications the re-mapped classification depends on the element
type, so no uniform statement is made about them.) -/
theorem C7_amended_idempotence :
    (∀ s n : String, mapSwiftTypeToTsType s = TsType.typeReference n →
      mapSwiftTypeToTsType (renderTsType (mapSwiftTypeToTsType s)) =
        mapSwiftTypeToTsType s) ∧
    (∀ s : String, (mapSwiftTypeToTsType s).kind ≠ SyntaxKind.ArrayType →
      (mapSwiftTypeToTsType s).kind ≠ SyntaxKind.TypeReference →
      (mapSwiftTypeToTsType (renderTsType (mapSwiftTypeToTsType s))).kind =
        SyntaxKind.TypeReference) := by
  constructor
  · intro s n h
    have hns : n = s := by
      have h0 := h
      rw [mapSwiftTypeToTsType.eq_def] at h0
      split_ifs at h0
      all_goals simp_all
    subst hns
    rw [h]
    exact h
  · intro s h1 h2
    cases hm : mapSwiftTypeToTsType s with
    | arrayType t =>
      rw [hm] at h1
      exact absurd rfl h1
    | typeReference nm =>
      rw [hm] at h2
      exact absurd rfl h2
    | voidKeyword =>
      show (mapSwiftTypeToTsType "void").kind = SyntaxKind.TypeReference
      rw [mapSwiftTypeToTsType_base "void" (by decide) (by decide)]
      decide
    | anyKeyword =>
      show (mapSwiftTypeToTsType "any").kind = SyntaxKind.TypeReference
      rw [mapSwiftTypeToTsType_base "any" (by decide) (by decide)]
      decide
    | stringKeyword =>
      show (mapSwiftTypeToTsType "string").kind = SyntaxKind.TypeReference
      rw [mapSwiftTypeToTsType_base "string" (by decide) (by decide)]
      decide
    | booleanKeyword =>
      show (mapSwiftTypeToTsType "boolean").kind = SyntaxKind.TypeReference
      rw [mapSwiftTypeToTsType_base "boolean" (by decide) (by decide)]
      decide
    | numberKeyword =>
      show (mapSwiftTypeToTsType "number").kind = SyntaxKind.TypeReference
      rw [mapSwiftTypeToTsType_base "number" (by decide) (by decide)]
      decide

/-- C7 witness: the reference clause at the opaque name `Foo` and the
keyword clause at `Bool`. -/
theorem C7_amended_idempotence_witness :
    mapSwiftTypeToTsType (renderTsType (mapSwiftTypeToTsType "Foo")) =
      mapSwiftTypeToTsType "Foo" ∧
    (mapSwiftTypeToTsType (renderTsType (mapSwiftTypeToTsType "Bool"))).kind =
      SyntaxKind.TypeReference := by
  have hBool : mapSwiftTypeToTsType "Bool" = TsType.booleanKeyword := by
    rw [mapSwiftTypeToTsType_base "Bool" (by decide) (by decide)]
    decide
  refine ⟨C7_amended_idempotence.1 "Foo" "Foo" ?_,
    C7_amended_idempotence.2 "Bool" ?_ ?_⟩
  · rw [mapSwiftTypeToTsType_base "Foo" (by decide) (by decide)]
    decide
  · rw [hBool]
    decide
  · rw [hBool]
    decide
